import Mathlib

/-
Shallow embedding of the trending-score engine of the Trends module
(backend/app/services/trending_score_calculator.py and
backend/app/services/trend_aggregator_service.py).

Modelling conventions:
- Python floats are modelled exactly: raw metric fields are rationals,
  and score values that pass through the exponential recency decay are reals.
- Dictionary fields that may be absent are Option-valued; each access site
  applies the same default that the corresponding dict.get call applies.
- A timestamp string that is present but unparseable behaves exactly like a
  missing one everywhere in the source, so both are modelled as none.
- Rounding to two decimals is modelled as nearest-integer rounding of the
  value scaled by 100 (the idealized form of the float round in the source).
- The per-item score_breakdown annotation (rounded copies of the five
  component fields) carries no independent information and is not modelled;
  the weights_used annotation is modelled.
-/

namespace Trends

/-! ## String helpers (Python lower/split modelled on character lists) -/

def pyLower (s : String) : String := ⟨s.data.map Char.toLower⟩

def wordsAux : List Char → List Char → List String
  | [], acc => if acc.isEmpty then [] else [String.mk acc.reverse]
  | c :: rest, acc =>
    if c.isWhitespace then
      (if acc.isEmpty then wordsAux rest [] else String.mk acc.reverse :: wordsAux rest [])
    else wordsAux rest (c :: acc)

/-- Python str.split with no arguments: split on whitespace runs, no empty words. -/
def pySplit (s : String) : List String := wordsAux s.data []

/-- Python max over a nonempty list, with a default for the empty generator case. -/
def pyMax (l : List ℚ) (d : ℚ) : ℚ :=
  match l with
  | [] => d
  | x :: xs => xs.foldl max x

/-- Python min over a nonempty list, with a default for the empty generator case. -/
def pyMin (l : List ℚ) (d : ℚ) : ℚ :=
  match l with
  | [] => d
  | x :: xs => xs.foldl min x

/-! ## Data model -/

/-- One point of a trendingHistogram time series: value (default 0 at use
sites) and an ISO date that either parses to a timestamp or does not. -/
structure HistPoint where
  value : Option ℚ := none
  date : Option ℚ := none
deriving DecidableEq

/-- One entry of the relatedVideos list of a short-video creator. -/
structure RelVideo where
  viewCount : Option ℚ := none
  likedCount : Option ℚ := none
  createTime : Option ℚ := none
deriving DecidableEq

/-- A trend item: the unified dictionary the scoring engine operates on.
Input fields mirror the keys read by the calculator; score fields are
written during scoring. -/
structure Trend where
  platform : String := ""
  entity_type : String := ""
  query : Option String := none
  title : Option String := none
  name : Option String := none
  search_volume : Option ℚ := none
  increase_percentage : Option ℚ := none
  start_timestamp : Option ℚ := none
  active : Option Bool := none
  publishedAt : Option ℚ := none
  viewCount : Option ℚ := none
  likeCount : Option ℚ := none
  commentCount : Option ℚ := none
  videoCount : Option ℚ := none
  rank : Option ℚ := none
  followerCount : Option ℚ := none
  likedCount : Option ℚ := none
  relatedVideos : List RelVideo := []
  trendingHistogram : List HistPoint := []
  volume_score : ℚ := 0
  engagement_score : ℚ := 0
  velocity_score : ℚ := 0
  cross_platform_score : ℚ := 0
  recency_score : ℝ := 0
  trending_score : ℝ := 0
  weights_used_volume : ℚ := 0
  weights_used_engagement : ℚ := 0
  weights_used_velocity : ℚ := 0
  weights_used_recency : ℚ := 0
  weights_used_cross_platform : ℚ := 0

/-- The per-calculator mutable maxima used by short-video engagement
normalization (fields of the calculator object, initialized to 1). -/
structure MaxState where
  maxHashtagViews : ℚ := 1
  maxHashtagVideos : ℚ := 1
  maxHashtagRank : ℚ := 1
  maxSoundRank : ℚ := 1
  maxVideoRank : ℚ := 1
deriving DecidableEq

/-- The initial calculator state set in the constructor. -/
def initState : MaxState := {}

/-- The method _calculate_tiktok_max_values: recompute each group of maxima
from the batch whenever the corresponding entity sublist is nonempty. -/
def calcTiktokMaxValues (st : MaxState) (ts : List Trend) : MaxState :=
  let hs := ts.filter (fun t => decide (t.platform = "tiktok" ∧ t.entity_type = "hashtag"))
  let ss := ts.filter (fun t => decide (t.platform = "tiktok" ∧ t.entity_type = "sound"))
  let vs := ts.filter (fun t => decide (t.platform = "tiktok" ∧ t.entity_type = "video"))
  { maxHashtagViews :=
      if hs.isEmpty then st.maxHashtagViews else pyMax (hs.map (fun h => h.viewCount.getD 0)) 1
    maxHashtagVideos :=
      if hs.isEmpty then st.maxHashtagVideos else pyMax (hs.map (fun h => h.videoCount.getD 0)) 1
    maxHashtagRank :=
      if hs.isEmpty then st.maxHashtagRank else pyMax (hs.map (fun h => h.rank.getD 1)) 1
    maxSoundRank :=
      if ss.isEmpty then st.maxSoundRank else pyMax (ss.map (fun s => s.rank.getD 1)) 1
    maxVideoRank :=
      if vs.isEmpty then st.maxVideoRank else pyMax (vs.map (fun v => v.rank.getD 1)) 1 }

/-! ## Component scorers -/

/-- The method _calculate_volume_score. -/
def volumeScore (t : Trend) : ℚ :=
  if t.platform = "google_trends" then (t.search_volume.getD 0) * 100
  else if t.platform = "youtube" then t.viewCount.getD 0
  else if t.platform = "tiktok" then
    if t.entity_type = "hashtag" then t.viewCount.getD 0
    else if t.entity_type = "creator" then (t.followerCount.getD 0) * 10
    else if t.entity_type = "sound" then t.rank.getD 0
    else if t.entity_type = "video" then t.rank.getD 0
    else 0
  else 0

/-- The method _calculate_histogram_momentum: least-squares slope of the
histogram values against positions 0,1,2,..., returned as abs slope times 100. -/
def histogramMomentum (t : Trend) : ℚ :=
  let values := t.trendingHistogram.map (fun p => p.value.getD 0)
  let n := values.length
  if n < 2 then 0
  else
    let xMean : ℚ := (((List.range n).map (fun i => (i : ℚ))).sum) / n
    let yMean : ℚ := values.sum / n
    let numer : ℚ := (values.enum.map (fun p => ((p.1 : ℚ) - xMean) * (p.2 - yMean))).sum
    let denom : ℚ := (((List.range n).map (fun i => ((i : ℚ) - xMean) ^ 2)).sum)
    if denom = 0 then 0 else |numer / denom| * 100

/-- The method _calculate_engagement_score (reads the per-batch maxima state). -/
def engagementScore (st : MaxState) (t : Trend) : ℚ :=
  if t.platform = "google_trends" then t.increase_percentage.getD 0
  else if t.platform = "youtube" then
    let views := t.viewCount.getD 0
    if views = 0 then 0
    else ((t.likeCount.getD 0 + t.commentCount.getD 0) / views) * 1000000
  else if t.platform = "tiktok" then
    if t.entity_type = "hashtag" then
      let viewNorm := (t.viewCount.getD 0) / st.maxHashtagViews
      let videoNorm := (t.videoCount.getD 0) / st.maxHashtagVideos
      let rankNorm := 1 - (t.rank.getD 100) / st.maxHashtagRank
      let momentumNorm := histogramMomentum t
      0.45 * viewNorm + 0.30 * videoNorm + 0.15 * rankNorm + 0.10 * momentumNorm
    else if t.entity_type = "creator" then
      ((t.likedCount.getD 0) / (t.followerCount.getD 1)) * 100
    else if t.entity_type = "sound" then
      (1 - (t.rank.getD st.maxSoundRank) / st.maxSoundRank) * 100
    else if t.entity_type = "video" then
      (1 - (t.rank.getD st.maxVideoRank) / st.maxVideoRank) * 100
    else 0
  else 0

/-- The method _calculate_velocity_score (stateless; needs the current time). -/
def velocityScore (now : ℚ) (t : Trend) : ℚ :=
  if t.platform = "google_trends" then
    let pct := t.increase_percentage.getD 0
    let mult : ℚ := if t.active.getD true then 1.5 else 1
    let v := pct * 30 * mult
    if 1000 ≤ pct then v * 1.2 else v
  else if t.platform = "youtube" then
    let views := t.viewCount.getD 0
    let likes := t.likeCount.getD 0
    let comments := t.commentCount.getD 0
    match t.publishedAt with
    | some pub =>
      let hoursSince := max 1 ((now - pub) / 3600)
      (views / hoursSince) * 0.7 + ((likes + comments) / hoursSince) * 0.3
    | none =>
      (views / 24) * 0.7 + ((likes + comments) / 24) * 0.3
  else if t.platform = "tiktok" then
    let creatorVelocity : Option ℚ :=
      if t.entity_type = "creator" ∧ 2 ≤ t.relatedVideos.length then
        let totalViews := (t.relatedVideos.map (fun v => v.viewCount.getD 0)).sum
        let totalLikes := (t.relatedVideos.map (fun v => v.likedCount.getD 0)).sum
        let times := t.relatedVideos.filterMap (fun v => v.createTime)
        if 2 ≤ times.length then
          let span := max 1 ((pyMax times 0 - pyMin times 0) / 86400)
          some (0.50 * (totalViews / span) + 0.30 * (totalLikes / span) +
                0.20 * ((t.relatedVideos.length : ℚ) / span) * 100000)
        else none
      else none
    match creatorVelocity with
    | some v => v
    | none =>
      if 2 ≤ t.trendingHistogram.length then
        let firstVal := (t.trendingHistogram.head?.elim 0 (fun p => p.value.getD 0))
        let lastVal := (t.trendingHistogram.getLast?.elim 0 (fun p => p.value.getD 0))
        max 0 (lastVal - firstVal) * 100
      else (100 - t.rank.getD 100) * 10
  else 0

/-! ## Recency -/

/-- Most recent parseable createTime among the related videos of a creator. -/
def mostRecentCreateTime (vids : List RelVideo) : Option ℚ :=
  match vids.filterMap (fun v => v.createTime) with
  | [] => none
  | x :: xs => some (xs.foldl max x)

/-- Python falsiness of the timestamp variable: None or exactly 0. -/
def tsFalsy (o : Option ℚ) : Prop := o = none ∨ o = some 0

instance (o : Option ℚ) : Decidable (tsFalsy o) := by
  unfold tsFalsy; infer_instance

/-- The value of the timestamp variable of _calculate_recency_score for a
short-video item right before the final falsiness check. -/
def tiktokRecencyTs (t : Trend) : Option ℚ :=
  let ts1 : Option ℚ :=
    if t.entity_type = "creator" then mostRecentCreateTime t.relatedVideos else none
  if tsFalsy ts1 then
    match t.trendingHistogram.getLast? with
    | some p => match p.date with
                | some d => some d
                | none => ts1
    | none => ts1
  else ts1

/-- The value of the timestamp variable of _calculate_recency_score right
before the final falsiness check, for any platform. -/
def recencyTs (t : Trend) : Option ℚ :=
  if t.platform = "google_trends" then t.start_timestamp
  else if t.platform = "youtube" then t.publishedAt
  else if t.platform = "tiktok" then tiktokRecencyTs t
  else none

/-- Age in hours as computed by _calculate_recency_score. -/
def ageHours (now ts : ℚ) : ℚ := max 0 ((now - ts) / 3600)

/-- The method _calculate_recency_score: default 70 on a falsy timestamp,
otherwise exponential decay with a 24 hour half-life, clamped to the 0..100 range. -/
noncomputable def recencyScore (now : ℚ) (t : Trend) : ℝ :=
  match recencyTs t with
  | none => 70
  | some ts =>
    if ts = 0 then 70
    else max 0 (min 100 (100 * (1/2 : ℝ) ^ ((ageHours now ts / 24 : ℚ) : ℝ)))

/-! ## Cross-platform presence -/

/-- Fixed stop-word list of _extract_key_terms. -/
def stopWords : List String :=
  ["the", "a", "an", "and", "or", "but", "in", "on", "at", "to", "for", "of", "vs", "x"]

/-- The text the calculator reads for an item: query or title or name,
falling through on missing or empty strings. -/
def trendText (t : Trend) : String :=
  match t.query with
  | some q => if q = "" then
      (match t.title with
       | some ti => if ti = "" then (t.name.getD "") else ti
       | none => t.name.getD "")
    else q
  | none =>
    match t.title with
    | some ti => if ti = "" then (t.name.getD "") else ti
    | none => t.name.getD ""

/-- The method _extract_key_terms: lowercase, split, keep words longer than
two characters that are not stop words, as a set. -/
def extractKeyTerms (t : Trend) : Finset String :=
  ((pySplit (pyLower (trendText t))).filter
    (fun w => decide (2 < w.length ∧ w ∉ stopWords))).toFinset

/-- The method _terms_overlap: Jaccard similarity of the two term sets
reaches the 0.3 threshold (false on an empty side). -/
def termsOverlap (s1 s2 : Finset String) : Bool :=
  if s1 = ∅ ∨ s2 = ∅ then false
  else if s1 ∪ s2 = ∅ then false
  else decide ((3 : ℚ) / 10 ≤ ((s1 ∩ s2).card : ℚ) / ((s1 ∪ s2).card : ℚ))

/-- The platform-collection loop of _calculate_cross_platform_score: walk the
batch, adding the platform of any item whose terms overlap and whose platform
is not already collected.  (The identity skip of the source loop is subsumed
by the platform-membership skip, because the own platform seeds the set.) -/
def crossFold (tTerms : Finset String) : List Trend → List String → List String
  | [], found => found
  | o :: rest, found =>
    if o.platform ∈ found then crossFold tTerms rest found
    else if termsOverlap tTerms (extractKeyTerms o) then
      crossFold tTerms rest (o.platform :: found)
    else crossFold tTerms rest found

/-- The method _calculate_cross_platform_score. -/
def crossPlatformScore (t : Trend) (batch : List Trend) : ℚ :=
  let tTerms := extractKeyTerms t
  if tTerms = ∅ then 0
  else
    let found := crossFold tTerms batch [t.platform]
    if found.length = 1 then 0
    else if found.length = 2 then 50
    else 100

/-! ## Search-platform engagement rescale -/

/-- The search-platform sublist read by _normalize_engagement_scores. -/
def googleItems (ts : List Trend) : List Trend :=
  ts.filter (fun t => decide (t.platform = "google_trends"))

/-- The non-search-platform sublist read by _normalize_engagement_scores. -/
def otherItems (ts : List Trend) : List Trend :=
  ts.filter (fun t => decide (t.platform ≠ "google_trends"))

/-- The positive raw engagement values of the other platforms. -/
def otherPositiveEngagement (ts : List Trend) : List ℚ :=
  ((otherItems ts).map (fun t => t.engagement_score)).filter (fun v => decide (0 < v))

/-- The min-max rescale applied to a search-platform raw engagement value:
normalize within the search-platform range, then scale into the range of the
other platforms positive engagement values. -/
def googleEngagementRescale (ts : List Trend) (e : ℚ) : ℚ :=
  let otherScores := otherPositiveEngagement ts
  let otherMin := pyMin otherScores 0
  let otherMax := pyMax otherScores 0
  let googleScores := (googleItems ts).map (fun t => t.engagement_score)
  let googleMin := pyMin googleScores 0
  let googleMax := pyMax googleScores 0
  let googleRange := if googleMax ≠ googleMin then googleMax - googleMin else 1
  otherMin + ((e - googleMin) / googleRange) * (otherMax - otherMin)

/-- The method _normalize_engagement_scores: linearly rescale the raw
engagement of search-platform items into the range spanned by the other
platforms positive raw engagement scores; no-op when either side is missing
or the other platforms have no positive engagement value. -/
def normalizeEngagementScores (trends : List Trend) : List Trend :=
  if (otherItems trends).isEmpty ∨ (googleItems trends).isEmpty then trends
  else if (otherPositiveEngagement trends).isEmpty then trends
  else
    trends.map (fun t =>
      if t.platform = "google_trends" then
        { t with engagement_score := googleEngagementRescale trends t.engagement_score }
      else t)

/-! ## Percentage-of-total normalization -/

/-- The three dictionary keys _normalize_scores is invoked with. -/
inductive ScoreKey where
  | volume
  | engagement
  | velocity
deriving DecidableEq

def getScore (k : ScoreKey) (t : Trend) : ℚ :=
  match k with
  | .volume => t.volume_score
  | .engagement => t.engagement_score
  | .velocity => t.velocity_score

def setScore (k : ScoreKey) (v : ℚ) (t : Trend) : Trend :=
  match k with
  | .volume => { t with volume_score := v }
  | .engagement => { t with engagement_score := v }
  | .velocity => { t with velocity_score := v }

/-- The method _normalize_scores: replace each value by its percentage of the
batch total, or by an equal share when the total is zero. -/
def normalizeScores (k : ScoreKey) (trends : List Trend) : List Trend :=
  if (trends.map (getScore k)).sum = 0 then
    trends.map (setScore k (100 / (trends.length : ℚ)))
  else
    trends.map (fun t => setScore k ((getScore k t) / (trends.map (getScore k)).sum * 100) t)

/-! ## Weight tables -/

/-- A five-component weight vector. -/
structure Weights where
  volume : ℚ
  engagement : ℚ
  velocity : ℚ
  recency : ℚ
  cross_platform : ℚ
deriving DecidableEq

def Weights.sum (w : Weights) : ℚ :=
  w.volume + w.engagement + w.velocity + w.recency + w.cross_platform

/-- Weight selection of calculate_universal_score_adaptive (multi-platform pass). -/
def adaptiveWeightsFor (platform entity : String) : Weights :=
  if platform = "google_trends" then
    ⟨0.10, 0.15, 0.30, 0.35, 0.10⟩
  else if platform = "youtube" then
    ⟨0.10, 0.35, 0.25, 0.20, 0.10⟩
  else if platform = "tiktok" then
    if entity = "hashtag" then ⟨0.15, 0.35, 0.25, 0.20, 0.05⟩
    else if entity = "creator" then ⟨0.10, 0.30, 0.30, 0.20, 0.10⟩
    else if entity = "sound" then ⟨0.01, 0.30, 0.30, 0.24, 0.15⟩
    else if entity = "video" then ⟨0.01, 0.80, 0.01, 0.01, 0.17⟩
    else ⟨0.25, 0.30, 0.20, 0.15, 0.10⟩
  else ⟨0.25, 0.30, 0.20, 0.15, 0.10⟩

/-- Weight selection of calculate_platform_specific_scores (single-platform pass). -/
def platformSpecificWeightsFor (platform entity : String) : Weights :=
  if platform = "google_trends" then
    ⟨0.10, 0.15, 0.35, 0.40, 0⟩
  else if platform = "youtube" then
    ⟨0.35, 0.30, 0.20, 0.15, 0⟩
  else if platform = "tiktok" then
    if entity = "hashtag" then ⟨0.20, 0.35, 0.25, 0.20, 0⟩
    else if entity = "creator" then ⟨0.20, 0.30, 0.30, 0.20, 0⟩
    else if entity = "sound" then ⟨0, 0.35, 0.35, 0.30, 0⟩
    else if entity = "video" then ⟨0, 1, 0, 0, 0⟩
    else ⟨0.30, 0.35, 0.20, 0.15, 0⟩
  else ⟨0.35, 0.30, 0.20, 0.15, 0⟩

/-! ## Final weighted score -/

/-- Idealized two-decimal rounding of the source. -/
noncomputable def round2 (x : ℝ) : ℝ := ((round (x * 100) : ℤ) : ℝ) / 100

/-- The weighted combination of the five component scores of an item under a
weight vector (the sum computed in the final loop of the adaptive pass). -/
noncomputable def weightedSum (w : Weights) (t : Trend) : ℝ :=
  (w.volume : ℝ) * (t.volume_score : ℝ) +
  (w.engagement : ℝ) * (t.engagement_score : ℝ) +
  (w.velocity : ℝ) * (t.velocity_score : ℝ) +
  (w.recency : ℝ) * t.recency_score +
  (w.cross_platform : ℝ) * (t.cross_platform_score : ℝ)

/-- The final loop body of the adaptive pass: select weights, attach the
rounded weighted score and the weights_used annotation. -/
noncomputable def assignTrendingScore (t : Trend) : Trend :=
  let w := adaptiveWeightsFor t.platform t.entity_type
  { t with trending_score := round2 (weightedSum w t)
           weights_used_volume := w.volume
           weights_used_engagement := w.engagement
           weights_used_velocity := w.velocity
           weights_used_recency := w.recency
           weights_used_cross_platform := w.cross_platform }

/-! ## The adaptive scoring pipeline -/

/-- The first loop of calculate_universal_score_adaptive: compute the five
raw component scores of every item (after the maxima precomputation). -/
noncomputable def computeComponentScores (now : ℚ) (st : MaxState) (batch : List Trend) :
    List Trend :=
  let stm := calcTiktokMaxValues st batch
  batch.map (fun t =>
    { t with volume_score := volumeScore t
             engagement_score := engagementScore stm t
             velocity_score := velocityScore now t
             recency_score := recencyScore now t
             cross_platform_score := crossPlatformScore t batch })

/-- Python stable descending sort by trending_score. -/
noncomputable def sortByTrendingScore (ts : List Trend) : List Trend :=
  ts.mergeSort (fun a b => decide (b.trending_score ≤ a.trending_score))

/-- The method calculate_universal_score_adaptive: raw components, search
engagement rescale, percentage-of-total normalization of volume, engagement
and velocity, weighted final score, descending sort. -/
noncomputable def calculateUniversalScoreAdaptive (now : ℚ) (st : MaxState)
    (batch : List Trend) : List Trend :=
  if batch.isEmpty then []
  else
    sortByTrendingScore
      ((normalizeScores .velocity (normalizeScores .engagement (normalizeScores .volume
        (normalizeEngagementScores (computeComponentScores now st batch))))).map
        assignTrendingScore)

/-! ## Time-range filter (trend_aggregator_service.filter_by_time_range) -/

/-- The time_delta_map table, in seconds. -/
def timeDelta (r : String) : Option ℚ :=
  if r = "1h" then some 3600
  else if r = "24h" then some 86400
  else if r = "7d" then some 604800
  else if r = "30d" then some 2592000
  else if r = "3m" then some 7776000
  else if r = "6m" then some 15552000
  else if r = "1y" then some 31536000
  else none

/-- Per-item timestamp resolution of filter_by_time_range (short-video items
use the last histogram date; no falsy-zero handling here). -/
def filterTs (t : Trend) : Option ℚ :=
  if t.platform = "google_trends" then t.start_timestamp
  else if t.platform = "youtube" then t.publishedAt
  else if t.platform = "tiktok" then
    match t.trendingHistogram.getLast? with
    | some p => p.date
    | none => none
  else none

/-- The method filter_by_time_range: keep items with no resolvable timestamp
or with a timestamp at or after the cutoff. -/
def filterByTimeRange (now : ℚ) (timeRange : String) (trends : List Trend) : List Trend :=
  match timeDelta timeRange with
  | none => trends
  | some d =>
    trends.filter (fun t =>
      match filterTs t with
      | none => true
      | some ts => decide (now - d ≤ ts))

/-! ## Helper lemmas: list max/min -/

lemma le_foldl_max (xs : List ℚ) (a : ℚ) : a ≤ xs.foldl max a := by
  induction xs generalizing a with
  | nil => simp
  | cons x xs ih => exact le_trans (le_max_left a x) (ih (max a x))

lemma mem_le_foldl_max (xs : List ℚ) (a x : ℚ) (hx : x ∈ xs) : x ≤ xs.foldl max a := by
  induction xs generalizing a with
  | nil => cases hx
  | cons y ys ih =>
    rcases List.mem_cons.mp hx with h | h
    · subst h
      exact le_trans (le_max_right a x) (le_foldl_max ys _)
    · exact ih _ h

lemma le_pyMax (l : List ℚ) (d x : ℚ) (hx : x ∈ l) : x ≤ pyMax l d := by
  cases l with
  | nil => cases hx
  | cons y ys =>
    rcases List.mem_cons.mp hx with h | h
    · subst h
      exact le_foldl_max ys x
    · exact mem_le_foldl_max ys y x h

lemma foldl_min_le (xs : List ℚ) (a : ℚ) : xs.foldl min a ≤ a := by
  induction xs generalizing a with
  | nil => simp
  | cons x xs ih => exact le_trans (ih (min a x)) (min_le_left a x)

lemma foldl_min_le_mem (xs : List ℚ) (a x : ℚ) (hx : x ∈ xs) : xs.foldl min a ≤ x := by
  induction xs generalizing a with
  | nil => cases hx
  | cons y ys ih =>
    rcases List.mem_cons.mp hx with h | h
    · subst h
      exact le_trans (foldl_min_le ys _) (min_le_right a x)
    · exact ih _ h

lemma pyMin_le (l : List ℚ) (d x : ℚ) (hx : x ∈ l) : pyMin l d ≤ x := by
  cases l with
  | nil => cases hx
  | cons y ys =>
    rcases List.mem_cons.mp hx with h | h
    · subst h
      exact foldl_min_le ys x
    · exact foldl_min_le_mem ys y x h

lemma pyMin_le_pyMax (l : List ℚ) (d : ℚ) (h : l ≠ []) : pyMin l d ≤ pyMax l d := by
  obtain ⟨x, hx⟩ := List.exists_mem_of_ne_nil l h
  exact le_trans (pyMin_le l d x hx) (le_pyMax l d x hx)

/-! ## Helper lemmas: score keys and normalization -/

lemma getScore_setScore (k : ScoreKey) (v : ℚ) (t : Trend) :
    getScore k (setScore k v t) = v := by
  cases k <;> rfl

lemma map_setScore_apply (k : ScoreKey) (f : Trend → ℚ) (ts : List Trend) :
    ((ts.map (fun t => setScore k (f t) t)).map (getScore k)) = ts.map f := by
  induction ts with
  | nil => rfl
  | cons t ts ih => simp [getScore_setScore, ih]

lemma sum_map_div_mul (l : List ℚ) (T : ℚ) :
    (l.map (fun x => x / T * 100)).sum = l.sum / T * 100 := by
  induction l with
  | nil => simp
  | cons x xs ih =>
    simp only [List.map_cons, List.sum_cons, ih]
    ring

lemma sum_map_const_q (l : List Trend) (c : ℚ) :
    (l.map (fun _ => c)).sum = (l.length : ℚ) * c := by
  induction l with
  | nil => simp
  | cons x xs ih =>
    simp only [List.map_cons, List.sum_cons, ih, List.length_cons]
    push_cast
    ring

/-- Claim C2: for every non-empty batch and each of the three normalized
component keys, _normalize_scores assigns the equal share 100/len on a zero
total and the percentage of total otherwise, and in both cases the values of
that key across the batch sum to exactly 100 (hence within 1e-6 of 100). -/
theorem claim_C2_normalize_sums_to_100 (k : ScoreKey) (ts : List Trend) (h : ts ≠ []) :
    (((ts.map (getScore k)).sum = 0 →
        normalizeScores k ts = ts.map (setScore k (100 / (ts.length : ℚ)))) ∧
     ((ts.map (getScore k)).sum ≠ 0 →
        normalizeScores k ts =
          ts.map (fun t => setScore k (getScore k t / (ts.map (getScore k)).sum * 100) t))) ∧
    ((normalizeScores k ts).map (getScore k)).sum = 100 := by
  have hn : (ts.length : ℚ) ≠ 0 := by
    have : 0 < ts.length := List.length_pos.mpr h
    exact_mod_cast this.ne'
  by_cases h0 : (ts.map (getScore k)).sum = 0
  · refine ⟨⟨fun _ => ?_, fun hc => absurd h0 hc⟩, ?_⟩
    · simp [normalizeScores, h0]
    · have he : normalizeScores k ts = ts.map (fun t => setScore k (100 / (ts.length : ℚ)) t) := by
        simp [normalizeScores, h0]
      rw [he, map_setScore_apply k (fun _ => 100 / (ts.length : ℚ)) ts, sum_map_const_q]
      field_simp
  · refine ⟨⟨fun hc => absurd hc h0, fun _ => ?_⟩, ?_⟩
    · simp [normalizeScores, h0]
    · have he : normalizeScores k ts =
          ts.map (fun t => setScore k (getScore k t / (ts.map (getScore k)).sum * 100) t) := by
        simp [normalizeScores, h0]
      rw [he, map_setScore_apply k _ ts]
      have := sum_map_div_mul (ts.map (getScore k)) ((ts.map (getScore k)).sum)
      simp only [List.map_map] at this ⊢
      rw [show ((fun x => x / (ts.map (getScore k)).sum * 100) ∘ getScore k)
            = fun t => getScore k t / (ts.map (getScore k)).sum * 100 from rfl] at this
      rw [this]
      field_simp

/-- Witness for claim C2: a singleton batch. -/
theorem claim_C2_witness :
    (([({} : Trend)] : List Trend) ≠ []) ∧
    (((([({} : Trend)].map (getScore .volume)).sum = 0 →
        normalizeScores .volume [({} : Trend)] =
          [({} : Trend)].map (setScore .volume (100 / (([({} : Trend)] : List Trend).length : ℚ)))) ∧
      ((([({} : Trend)].map (getScore .volume)).sum ≠ 0 →
        normalizeScores .volume [({} : Trend)] =
          [({} : Trend)].map (fun t =>
            setScore .volume (getScore .volume t / ([({} : Trend)].map (getScore .volume)).sum * 100) t)))) ∧
     ((normalizeScores .volume [({} : Trend)]).map (getScore .volume)).sum = 100) :=
  ⟨by simp, claim_C2_normalize_sums_to_100 .volume [({} : Trend)] (by simp)⟩

/-! ## Weight-table lemmas -/

lemma adaptiveWeightsFor_sum_one (p e : String) : (adaptiveWeightsFor p e).sum = 1 := by
  unfold adaptiveWeightsFor Weights.sum
  split_ifs <;> norm_num

lemma adaptiveWeightsFor_nonneg (p e : String) :
    0 ≤ (adaptiveWeightsFor p e).volume ∧ 0 ≤ (adaptiveWeightsFor p e).engagement ∧
    0 ≤ (adaptiveWeightsFor p e).velocity ∧ 0 ≤ (adaptiveWeightsFor p e).recency ∧
    0 ≤ (adaptiveWeightsFor p e).cross_platform := by
  unfold adaptiveWeightsFor
  split_ifs <;> norm_num

lemma platformSpecificWeightsFor_sum_one (p e : String) :
    (platformSpecificWeightsFor p e).sum = 1 := by
  unfold platformSpecificWeightsFor Weights.sum
  split_ifs <;> norm_num

lemma platformSpecificWeightsFor_nonneg (p e : String) :
    0 ≤ (platformSpecificWeightsFor p e).volume ∧ 0 ≤ (platformSpecificWeightsFor p e).engagement ∧
    0 ≤ (platformSpecificWeightsFor p e).velocity ∧ 0 ≤ (platformSpecificWeightsFor p e).recency ∧
    0 ≤ (platformSpecificWeightsFor p e).cross_platform := by
  unfold platformSpecificWeightsFor
  split_ifs <;> norm_num

/-- Claim C6: every weight vector either scoring variant can select, over all
platform and entity-type strings including the default branches, has five
non-negative weights summing to exactly 1 (hence within 1e-9 of 1). -/
theorem claim_C6_weights_sum_one (p e : String) :
    ((adaptiveWeightsFor p e).sum = 1 ∧
     0 ≤ (adaptiveWeightsFor p e).volume ∧ 0 ≤ (adaptiveWeightsFor p e).engagement ∧
     0 ≤ (adaptiveWeightsFor p e).velocity ∧ 0 ≤ (adaptiveWeightsFor p e).recency ∧
     0 ≤ (adaptiveWeightsFor p e).cross_platform) ∧
    ((platformSpecificWeightsFor p e).sum = 1 ∧
     0 ≤ (platformSpecificWeightsFor p e).volume ∧
     0 ≤ (platformSpecificWeightsFor p e).engagement ∧
     0 ≤ (platformSpecificWeightsFor p e).velocity ∧
     0 ≤ (platformSpecificWeightsFor p e).recency ∧
     0 ≤ (platformSpecificWeightsFor p e).cross_platform) :=
  ⟨⟨adaptiveWeightsFor_sum_one p e, adaptiveWeightsFor_nonneg p e⟩,
   ⟨platformSpecificWeightsFor_sum_one p e, platformSpecificWeightsFor_nonneg p e⟩⟩

/-- Claim C3 counterexample: in the adaptive (multi-platform) pass the
search-trends weight vector is not the claimed (0.35, 0.15, 0.30, 0.15, 0.05);
its volume weight is 0.10 and its recency weight is 0.35. -/
theorem claim_C3_counterexample :
    adaptiveWeightsFor "google_trends" "search_query" ≠
      ⟨0.35, 0.15, 0.30, 0.15, 0.05⟩ ∧
    (adaptiveWeightsFor "google_trends" "search_query").volume = 0.10 ∧
    (adaptiveWeightsFor "google_trends" "search_query").recency = 0.35 := by
  refine ⟨?_, by norm_num [adaptiveWeightsFor], by norm_num [adaptiveWeightsFor]⟩
  intro h
  have := congrArg Weights.volume h
  norm_num [adaptiveWeightsFor] at this

/-- Claim C3 (amended): for every item of the search-trends platform scored in
the adaptive multi-platform pass, irrespective of entity type, the weight
vector used is volume 0.10, engagement 0.15, velocity 0.30, recency 0.35,
cross-platform 0.10. -/
theorem claim_C3_amended (p e : String) (h : p = "google_trends") :
    adaptiveWeightsFor p e = ⟨0.10, 0.15, 0.30, 0.35, 0.10⟩ := by
  subst h
  norm_num [adaptiveWeightsFor]

/-- Witness for the amended claim C3. -/
theorem claim_C3_amended_witness :
    ("google_trends" = "google_trends") ∧
    adaptiveWeightsFor "google_trends" "search_query" = ⟨0.10, 0.15, 0.30, 0.35, 0.10⟩ :=
  ⟨rfl, claim_C3_amended "google_trends" "search_query" rfl⟩

/-! ## Recency: falsy-zero behaviour (claim C10) -/

/-- Claim C10: an item whose resolved timestamp variable equals 0 (the Unix
epoch) receives the missing-timestamp default recency score 70, because a
falsy timestamp is treated as absent. -/
theorem claim_C10_epoch_timestamp_default (now : ℚ) (t : Trend)
    (h : recencyTs t = some 0) : recencyScore now t = 70 := by
  unfold recencyScore
  rw [h]
  simp

/-- Witness for claim C10: a search-trends item with start_timestamp 0. -/
theorem claim_C10_witness :
    recencyTs { platform := "google_trends", start_timestamp := some 0 } = some 0 ∧
    recencyScore 123 { platform := "google_trends", start_timestamp := some 0 } = 70 :=
  ⟨by simp [recencyTs], claim_C10_epoch_timestamp_default 123 _ (by simp [recencyTs])⟩

/-! ## Time-range filter (claim C9) -/

/-- Claim C9 counterexample: with a 24h window and now = 1000000, an item
whose resolved timestamp 1003600 lies in the future (outside the claimed
interval from now minus the window up to now) is nevertheless kept, because
the source checks only the lower cutoff. -/
theorem claim_C9_counterexample :
    filterByTimeRange 1000000 "24h"
        [{ platform := "google_trends", start_timestamp := some 1003600 }] =
      [{ platform := "google_trends", start_timestamp := some 1003600 }] ∧
    filterTs { platform := "google_trends", start_timestamp := some 1003600 } = some 1003600 ∧
    ¬ ((1003600 : ℚ) ≤ 1000000) := by
  refine ⟨?_, by simp [filterTs], by norm_num⟩
  simp [filterByTimeRange, timeDelta, filterTs]
  norm_num

/-- Claim C9 (amended): for every recognized time window, the filter returns
exactly the subsequence (original order, items untouched) of items whose
resolved timestamp is missing/unparseable or at least now minus the window;
there is no upper cutoff at now, so future-dated items are also kept. -/
theorem claim_C9_amended (now d : ℚ) (r : String) (ts : List Trend)
    (h : timeDelta r = some d) :
    (filterByTimeRange now r ts).Sublist ts ∧
    ∀ t, t ∈ filterByTimeRange now r ts ↔
      (t ∈ ts ∧ (filterTs t = none ∨ ∃ x, filterTs t = some x ∧ now - d ≤ x)) := by
  unfold filterByTimeRange
  rw [h]
  constructor
  · exact List.filter_sublist _
  · intro t
    rw [List.mem_filter]
    constructor
    · rintro ⟨hm, hb⟩
      refine ⟨hm, ?_⟩
      cases hft : filterTs t with
      | none => exact Or.inl rfl
      | some x =>
        rw [hft] at hb
        simp only [decide_eq_true_eq] at hb
        exact Or.inr ⟨x, rfl, hb⟩
    · rintro ⟨hm, hc⟩
      refine ⟨hm, ?_⟩
      rcases hc with hn | ⟨x, hx, hle⟩
      · rw [hn]
      · rw [hx]
        simpa using hle

/-- Witness for the amended claim C9. -/
theorem claim_C9_amended_witness :
    (timeDelta "24h" = some 86400) ∧
    ((filterByTimeRange 0 "24h" []).Sublist [] ∧
     ∀ t, t ∈ filterByTimeRange 0 "24h" [] ↔
       (t ∈ ([] : List Trend) ∧
        (filterTs t = none ∨ ∃ x, filterTs t = some x ∧ (0 : ℚ) - 86400 ≤ x))) :=
  ⟨by decide, claim_C9_amended 0 86400 "24h" [] (by decide)⟩

/-! ## Recency decay (claim C5) -/

/-- Claim C5: for an item whose platform-specific timestamp resolves to a
non-falsy value, the recency score is the 24-hour-half-life exponential decay
clamped to the 0..100 range, with exact anchors 100 at age 0h, 50 at age 24h
and 25 at age 48h; an item whose timestamp does not resolve scores exactly 70. -/
theorem claim_C5_recency_decay (now : ℚ) (t u : Trend) (ts : ℚ)
    (h : recencyTs t = some ts) (h0 : ts ≠ 0) (hu : tsFalsy (recencyTs u)) :
    recencyScore now t =
      max 0 (min 100 (100 * (1/2 : ℝ) ^ ((ageHours now ts / 24 : ℚ) : ℝ))) ∧
    (0 ≤ recencyScore now t ∧ recencyScore now t ≤ 100) ∧
    (ageHours now ts = 0 → recencyScore now t = 100) ∧
    (ageHours now ts = 24 → recencyScore now t = 50) ∧
    (ageHours now ts = 48 → recencyScore now t = 25) ∧
    recencyScore now u = 70 := by
  have hts : recencyScore now t =
      max 0 (min 100 (100 * (1/2 : ℝ) ^ ((ageHours now ts / 24 : ℚ) : ℝ))) := by
    unfold recencyScore
    rw [h]
    simp [h0]
  refine ⟨hts, ⟨by rw [hts]; exact le_max_left 0 _, ?_⟩, ?_, ?_, ?_, ?_⟩
  · rw [hts]
    exact max_le (by norm_num) (min_le_left _ _)
  · intro ha
    rw [hts, ha]
    norm_num
  · intro ha
    rw [hts, ha]
    norm_num
  · intro ha
    rw [hts, ha]
    norm_num
  · rcases hu with hn | hz
    · unfold recencyScore
      rw [hn]
    · unfold recencyScore
      rw [hz]
      simp

/-- Witness for claim C5: a video-platform item published exactly 24 hours
before the current time scores 50, and an item with no timestamp scores 70. -/
theorem claim_C5_witness :
    (recencyTs { platform := "youtube", publishedAt := some 86400 } = some 86400) ∧
    ((86400 : ℚ) ≠ 0) ∧ tsFalsy (recencyTs ({} : Trend)) ∧
    (ageHours 172800 86400 = 24) ∧
    recencyScore 172800 { platform := "youtube", publishedAt := some 86400 } = 50 := by
  have h1 : recencyTs { platform := "youtube", publishedAt := some 86400 } = some 86400 := by
    simp [recencyTs]
  have h2 : (86400 : ℚ) ≠ 0 := by norm_num
  have h3 : tsFalsy (recencyTs ({} : Trend)) := by
    left
    decide
  have h4 : ageHours 172800 86400 = 24 := by
    unfold ageHours
    norm_num
  exact ⟨h1, h2, h3, h4,
    (claim_C5_recency_decay 172800 _ ({} : Trend) 86400 h1 h2 h3).2.2.2.1 h4⟩

/-! ## Search-platform engagement rescale (claim C8) -/

/-- Claim C8: in a batch with both search-platform and other-platform items,
if some other-platform item has positive raw engagement then every
search-platform raw engagement value is min-max rescaled into the interval
spanned by the other platforms positive raw engagement values (other items
untouched), and otherwise the rescaling step leaves the batch unchanged. -/
theorem claim_C8_engagement_rescale (ts : List Trend)
    (hg : googleItems ts ≠ []) (ho : otherItems ts ≠ []) :
    (otherPositiveEngagement ts = [] → normalizeEngagementScores ts = ts) ∧
    (otherPositiveEngagement ts ≠ [] →
      normalizeEngagementScores ts = ts.map (fun t =>
        if t.platform = "google_trends" then
          { t with engagement_score := googleEngagementRescale ts t.engagement_score }
        else t) ∧
      (∀ t ∈ normalizeEngagementScores ts, t.platform = "google_trends" →
        pyMin (otherPositiveEngagement ts) 0 ≤ t.engagement_score ∧
        t.engagement_score ≤ pyMax (otherPositiveEngagement ts) 0)) := by
  have hgE : (googleItems ts).isEmpty = false := by
    simpa [List.isEmpty_iff] using hg
  have hoE : (otherItems ts).isEmpty = false := by
    simpa [List.isEmpty_iff] using ho
  constructor
  · intro hpe
    simp [normalizeEngagementScores, hgE, hoE, hpe]
  · intro hpe
    have hpeE : (otherPositiveEngagement ts).isEmpty = false := by
      simpa [List.isEmpty_iff] using hpe
    have hmap : normalizeEngagementScores ts = ts.map (fun t =>
        if t.platform = "google_trends" then
          { t with engagement_score := googleEngagementRescale ts t.engagement_score }
        else t) := by
      simp [normalizeEngagementScores, hgE, hoE, hpeE]
    refine ⟨hmap, ?_⟩
    intro t htm hplat
    rw [hmap] at htm
    obtain ⟨t0, ht0, heq⟩ := List.mem_map.mp htm
    by_cases hp0 : t0.platform = "google_trends"
    · rw [if_pos hp0] at heq
      subst heq
      -- bound the rescaled value
      have homm : pyMin (otherPositiveEngagement ts) 0 ≤ pyMax (otherPositiveEngagement ts) 0 :=
        pyMin_le_pyMax _ 0 hpe
      have hgmem : t0.engagement_score ∈ (googleItems ts).map (fun t => t.engagement_score) := by
        refine List.mem_map.mpr ⟨t0, ?_, rfl⟩
        exact List.mem_filter.mpr ⟨ht0, by simp [hp0]⟩
      have hgne : (googleItems ts).map (fun t => t.engagement_score) ≠ [] := by
        intro hc
        rw [hc] at hgmem
        cases hgmem
      have hge1 : pyMin ((googleItems ts).map (fun t => t.engagement_score)) 0 ≤
          t0.engagement_score := pyMin_le _ 0 _ hgmem
      have hge2 : t0.engagement_score ≤
          pyMax ((googleItems ts).map (fun t => t.engagement_score)) 0 := le_pyMax _ 0 _ hgmem
      simp only [googleEngagementRescale]
      set omin := pyMin (otherPositiveEngagement ts) 0 with homin
      set omax := pyMax (otherPositiveEngagement ts) 0 with homax
      set gmin := pyMin ((googleItems ts).map (fun t => t.engagement_score)) 0 with hgmin
      set gmax := pyMax ((googleItems ts).map (fun t => t.engagement_score)) 0 with hgmax
      by_cases hgr : gmax ≠ gmin
      · have hlt : 0 < gmax - gmin := by
          have : gmin ≤ gmax := le_trans hge1 hge2
          rcases lt_or_eq_of_le this with hl | he
          · linarith
          · exact absurd he.symm hgr
        rw [if_pos hgr]
        have hq1 : 0 ≤ (t0.engagement_score - gmin) / (gmax - gmin) :=
          div_nonneg (by linarith) (le_of_lt hlt)
        have hq2 : (t0.engagement_score - gmin) / (gmax - gmin) ≤ 1 :=
          (div_le_one hlt).mpr (by linarith)
        have hor : (0 : ℚ) ≤ omax - omin := by linarith
        constructor
        · have := mul_nonneg hq1 hor
          linarith
        · have := mul_le_of_le_one_left hor hq2
          linarith
      · rw [if_neg hgr]
        push_neg at hgr
        have he : t0.engagement_score = gmin := le_antisymm (hgr ▸ hge2) hge1
        rw [he]
        constructor
        · ring_nf
          simp
        · ring_nf
          simpa using homm
    · rw [if_neg hp0] at heq
      subst heq
      exact absurd hplat hp0

/-- Concrete batch for the claim C8 witness: one search item with raw
engagement 2 and one video-platform item with raw engagement 5. -/
def c8Batch : List Trend :=
  [{ platform := "google_trends", engagement_score := 2 },
   { platform := "youtube", engagement_score := 5 }]

/-- Witness for claim C8. -/
theorem claim_C8_witness :
    (googleItems c8Batch ≠ []) ∧ (otherItems c8Batch ≠ []) ∧
    ((otherPositiveEngagement c8Batch ≠ []) →
      normalizeEngagementScores c8Batch = c8Batch.map (fun t =>
        if t.platform = "google_trends" then
          { t with engagement_score := googleEngagementRescale c8Batch t.engagement_score }
        else t) ∧
      (∀ t ∈ normalizeEngagementScores c8Batch,
        t.platform = "google_trends" →
        pyMin (otherPositiveEngagement c8Batch) 0 ≤ t.engagement_score ∧
        t.engagement_score ≤ pyMax (otherPositiveEngagement c8Batch) 0)) := by
  refine ⟨?_, ?_, ?_⟩
  · simp [googleItems, c8Batch]
  · simp [otherItems, c8Batch]
  · exact (claim_C8_engagement_rescale c8Batch
      (by simp [googleItems, c8Batch]) (by simp [otherItems, c8Batch])).2

/-! ## Cross-platform presence (claim C7) -/

/-- The platforms other than the own platform of an item that contain a
term-overlapping item, stated declaratively. -/
def matchedOtherPlatforms (t : Trend) (batch : List Trend) : Finset String :=
  ((batch.filter (fun o => decide (o.platform ≠ t.platform) &&
      termsOverlap (extractKeyTerms t) (extractKeyTerms o))).map (fun o => o.platform)).toFinset

lemma crossFold_mem (tTerms : Finset String) (l : List Trend) (found : List String)
    (p : String) :
    p ∈ crossFold tTerms l found ↔
      p ∈ found ∨ ∃ o ∈ l, o.platform = p ∧ termsOverlap tTerms (extractKeyTerms o) = true := by
  induction l generalizing found with
  | nil => simp [crossFold]
  | cons o rest ih =>
    unfold crossFold
    split_ifs with h1 h2
    · rw [ih]
      constructor
      · rintro (hf | ⟨o2, ho2, hp2, hov⟩)
        · exact Or.inl hf
        · exact Or.inr ⟨o2, List.mem_cons_of_mem _ ho2, hp2, hov⟩
      · rintro (hf | ⟨o2, ho2, hp2, hov⟩)
        · exact Or.inl hf
        · rcases List.mem_cons.mp ho2 with he | hm
          · subst he
            exact Or.inl (hp2 ▸ h1)
          · exact Or.inr ⟨o2, hm, hp2, hov⟩
    · rw [ih]
      constructor
      · rintro (hf | ⟨o2, ho2, hp2, hov⟩)
        · rcases List.mem_cons.mp hf with he | hm
          · exact Or.inr ⟨o, List.mem_cons_self o rest, he.symm, h2⟩
          · exact Or.inl hm
        · exact Or.inr ⟨o2, List.mem_cons_of_mem _ ho2, hp2, hov⟩
      · rintro (hf | ⟨o2, ho2, hp2, hov⟩)
        · exact Or.inl (List.mem_cons_of_mem _ hf)
        · rcases List.mem_cons.mp ho2 with he | hm
          · subst he
            exact Or.inl (hp2 ▸ List.mem_cons_self o2.platform found)
          · exact Or.inr ⟨o2, hm, hp2, hov⟩
    · rw [ih]
      constructor
      · rintro (hf | ⟨o2, ho2, hp2, hov⟩)
        · exact Or.inl hf
        · exact Or.inr ⟨o2, List.mem_cons_of_mem _ ho2, hp2, hov⟩
      · rintro (hf | ⟨o2, ho2, hp2, hov⟩)
        · exact Or.inl hf
        · rcases List.mem_cons.mp ho2 with he | hm
          · subst he
            exact absurd hov h2
          · exact Or.inr ⟨o2, hm, hp2, hov⟩

lemma crossFold_nodup (tTerms : Finset String) (l : List Trend) (found : List String)
    (h : found.Nodup) : (crossFold tTerms l found).Nodup := by
  induction l generalizing found with
  | nil => simpa [crossFold]
  | cons o rest ih =>
    unfold crossFold
    split_ifs with h1 h2
    · exact ih _ h
    · exact ih _ (List.nodup_cons.mpr ⟨h1, h⟩)
    · exact ih _ h

lemma termsOverlap_empty_left (s : Finset String) : termsOverlap ∅ s = false := by
  simp [termsOverlap]

lemma crossFold_length (t : Trend) (batch : List Trend) :
    (crossFold (extractKeyTerms t) batch [t.platform]).length =
      1 + (matchedOtherPlatforms t batch).card := by
  have hnd : (crossFold (extractKeyTerms t) batch [t.platform]).Nodup :=
    crossFold_nodup _ _ _ (List.nodup_singleton _)
  have hlen : (crossFold (extractKeyTerms t) batch [t.platform]).length =
      (crossFold (extractKeyTerms t) batch [t.platform]).toFinset.card :=
    (List.toFinset_card_of_nodup hnd).symm
  have hset : (crossFold (extractKeyTerms t) batch [t.platform]).toFinset =
      insert t.platform (matchedOtherPlatforms t batch) := by
    ext p
    rw [List.mem_toFinset, crossFold_mem, Finset.mem_insert]
    constructor
    · rintro (hf | ⟨o, ho, hp2, hov⟩)
      · exact Or.inl (List.mem_singleton.mp hf)
      · by_cases hpe : p = t.platform
        · exact Or.inl hpe
        · refine Or.inr ?_
          unfold matchedOtherPlatforms
          rw [List.mem_toFinset]
          refine List.mem_map.mpr ⟨o, ?_, hp2⟩
          refine List.mem_filter.mpr ⟨ho, ?_⟩
          simp only [Bool.and_eq_true, decide_eq_true_eq]
          exact ⟨hp2 ▸ hpe, hov⟩
    · rintro (hpe | hm)
      · exact Or.inl (List.mem_singleton.mpr hpe)
      · unfold matchedOtherPlatforms at hm
        rw [List.mem_toFinset] at hm
        obtain ⟨o, ho, hp2⟩ := List.mem_map.mp hm
        obtain ⟨hom, hpred⟩ := List.mem_filter.mp ho
        simp only [Bool.and_eq_true, decide_eq_true_eq] at hpred
        exact Or.inr ⟨o, hom, hp2, hpred.2⟩
  have hnotmem : t.platform ∉ matchedOtherPlatforms t batch := by
    unfold matchedOtherPlatforms
    rw [List.mem_toFinset]
    intro hm
    obtain ⟨o, ho, hp2⟩ := List.mem_map.mp hm
    obtain ⟨_, hpred⟩ := List.mem_filter.mp ho
    simp only [Bool.and_eq_true, decide_eq_true_eq] at hpred
    exact hpred.1 hp2
  rw [hlen, hset, Finset.card_insert_of_not_mem hnotmem]
  ring

lemma crossPlatformScore_eq (t : Trend) (batch : List Trend) :
    crossPlatformScore t batch =
      if (matchedOtherPlatforms t batch).card = 0 then 0
      else if (matchedOtherPlatforms t batch).card = 1 then 50 else 100 := by
  by_cases ht : extractKeyTerms t = ∅
  · have hmz : matchedOtherPlatforms t batch = ∅ := by
      unfold matchedOtherPlatforms
      rw [ht]
      have : batch.filter (fun o => decide (o.platform ≠ t.platform) &&
          termsOverlap ∅ (extractKeyTerms o)) = [] := by
        apply List.filter_eq_nil_iff.mpr
        intro o _
        simp [termsOverlap_empty_left]
      rw [this]
      rfl
    rw [crossPlatformScore, if_pos ht, hmz]
    simp
  · rw [crossPlatformScore, if_neg ht]
    simp only [crossFold_length]
    by_cases hc0 : (matchedOtherPlatforms t batch).card = 0
    · simp [hc0]
    · by_cases hc1 : (matchedOtherPlatforms t batch).card = 1
      · simp [hc1]
      · rw [if_neg (by omega), if_neg (by omega), if_neg hc0, if_neg hc1]

/-- Claim C7: the cross-platform score is 0 when no different-platform item
overlaps (on significant-term Jaccard at threshold 0.3), 50 when items of
exactly one other platform match, 100 at two or more; in particular any two
batch items of different platforms with Jaccard at least 0.3 both score at
least 50. -/
theorem claim_C7_cross_platform (batch : List Trend) (t t1 t2 : Trend)
    (h1 : t1 ∈ batch) (h2 : t2 ∈ batch) (hp : t1.platform ≠ t2.platform)
    (hj : (3 : ℚ) / 10 ≤ ((extractKeyTerms t1 ∩ extractKeyTerms t2).card : ℚ) /
          ((extractKeyTerms t1 ∪ extractKeyTerms t2).card : ℚ)) :
    (crossPlatformScore t batch =
      if (matchedOtherPlatforms t batch).card = 0 then 0
      else if (matchedOtherPlatforms t batch).card = 1 then 50 else 100) ∧
    50 ≤ crossPlatformScore t1 batch ∧ 50 ≤ crossPlatformScore t2 batch := by
  have hcap : ((extractKeyTerms t1) ∩ (extractKeyTerms t2)).Nonempty := by
    rw [Finset.nonempty_iff_ne_empty]
    intro hc
    rw [hc] at hj
    simp at hj
    norm_num at hj
  have hne1 : ¬ extractKeyTerms t1 = ∅ :=
    Finset.nonempty_iff_ne_empty.mp (hcap.mono Finset.inter_subset_left)
  have hne2 : ¬ extractKeyTerms t2 = ∅ :=
    Finset.nonempty_iff_ne_empty.mp (hcap.mono Finset.inter_subset_right)
  have hneu : ¬ (extractKeyTerms t1 ∪ extractKeyTerms t2) = ∅ :=
    Finset.nonempty_iff_ne_empty.mp
      (hcap.mono (le_trans Finset.inter_subset_left Finset.subset_union_left))
  have hov12 : termsOverlap (extractKeyTerms t1) (extractKeyTerms t2) = true := by
    unfold termsOverlap
    rw [if_neg (by tauto), if_neg hneu]
    exact decide_eq_true hj
  have hov21 : termsOverlap (extractKeyTerms t2) (extractKeyTerms t1) = true := by
    unfold termsOverlap
    rw [if_neg (by tauto), if_neg (by rwa [Finset.union_comm])]
    apply decide_eq_true
    rwa [Finset.inter_comm, Finset.union_comm]
  have hscore : ∀ a b : Trend, a ∈ batch → a.platform ∈ matchedOtherPlatforms b batch →
      50 ≤ crossPlatformScore b batch := by
    intro a b _ hmem
    rw [crossPlatformScore_eq]
    have hpos : 0 < (matchedOtherPlatforms b batch).card :=
      Finset.card_pos.mpr ⟨a.platform, hmem⟩
    by_cases hc1 : (matchedOtherPlatforms b batch).card = 1
    · rw [if_neg (by omega), if_pos hc1]
    · rw [if_neg (by omega), if_neg hc1]
      norm_num
  refine ⟨crossPlatformScore_eq t batch, ?_, ?_⟩
  · refine hscore t2 t1 h2 ?_
    unfold matchedOtherPlatforms
    rw [List.mem_toFinset]
    refine List.mem_map.mpr ⟨t2, ?_, rfl⟩
    refine List.mem_filter.mpr ⟨h2, ?_⟩
    simp only [Bool.and_eq_true, decide_eq_true_eq]
    exact ⟨Ne.symm hp, hov12⟩
  · refine hscore t1 t2 h1 ?_
    unfold matchedOtherPlatforms
    rw [List.mem_toFinset]
    refine List.mem_map.mpr ⟨t1, ?_, rfl⟩
    refine List.mem_filter.mpr ⟨h1, ?_⟩
    simp only [Bool.and_eq_true, decide_eq_true_eq]
    exact ⟨hp, hov21⟩

/-- First item for the claim C7 witness. -/
def c7A : Trend := { platform := "A", title := some "Taylor Swift Eras Tour" }

/-- Second item for the claim C7 witness. -/
def c7B : Trend := { platform := "B", title := some "Eras Tour Taylor Swift 2024" }

/-- Witness for claim C7: the two Eras Tour items of the spec, which share 4
of 5 significant terms (Jaccard 0.8), both score at least 50. -/
theorem claim_C7_witness :
    (c7A ∈ [c7A, c7B]) ∧ (c7B ∈ [c7A, c7B]) ∧ (c7A.platform ≠ c7B.platform) ∧
    ((3 : ℚ) / 10 ≤ ((extractKeyTerms c7A ∩ extractKeyTerms c7B).card : ℚ) /
      ((extractKeyTerms c7A ∪ extractKeyTerms c7B).card : ℚ)) ∧
    50 ≤ crossPlatformScore c7A [c7A, c7B] ∧ 50 ≤ crossPlatformScore c7B [c7A, c7B] := by
  have hm1 : c7A ∈ [c7A, c7B] := List.mem_cons_self _ _
  have hm2 : c7B ∈ [c7A, c7B] := List.mem_cons_of_mem _ (List.mem_cons_self _ _)
  have hp : c7A.platform ≠ c7B.platform := by decide
  have hci : (extractKeyTerms c7A ∩ extractKeyTerms c7B).card = 4 := by decide
  have hcu : (extractKeyTerms c7A ∪ extractKeyTerms c7B).card = 5 := by decide
  have hj : (3 : ℚ) / 10 ≤ ((extractKeyTerms c7A ∩ extractKeyTerms c7B).card : ℚ) /
      ((extractKeyTerms c7A ∪ extractKeyTerms c7B).card : ℚ) := by
    rw [hci, hcu]
    norm_num
  exact ⟨hm1, hm2, hp, hj,
    (claim_C7_cross_platform [c7A, c7B] c7A c7A c7B hm1 hm2 hp hj).2⟩

/-! ## State independence of the adaptive pass (claim C4) -/

lemma calcMax_hashtag_fields (s : MaxState) (ts : List Trend) (t : Trend) (ht : t ∈ ts)
    (hp : t.platform = "tiktok") (he : t.entity_type = "hashtag") :
    (calcTiktokMaxValues s ts).maxHashtagViews =
      pyMax ((ts.filter (fun x => decide (x.platform = "tiktok" ∧ x.entity_type = "hashtag"))).map
        (fun h => h.viewCount.getD 0)) 1 ∧
    (calcTiktokMaxValues s ts).maxHashtagVideos =
      pyMax ((ts.filter (fun x => decide (x.platform = "tiktok" ∧ x.entity_type = "hashtag"))).map
        (fun h => h.videoCount.getD 0)) 1 ∧
    (calcTiktokMaxValues s ts).maxHashtagRank =
      pyMax ((ts.filter (fun x => decide (x.platform = "tiktok" ∧ x.entity_type = "hashtag"))).map
        (fun h => h.rank.getD 1)) 1 := by
  have hmem : t ∈ ts.filter (fun x => decide (x.platform = "tiktok" ∧ x.entity_type = "hashtag")) :=
    List.mem_filter.mpr ⟨ht, by simp [hp, he]⟩
  have hfE : (ts.filter (fun x =>
      decide (x.platform = "tiktok" ∧ x.entity_type = "hashtag"))).isEmpty = false := by
    cases hl : ts.filter (fun x => decide (x.platform = "tiktok" ∧ x.entity_type = "hashtag")) with
    | nil => rw [hl] at hmem; cases hmem
    | cons a l => rfl
  refine ⟨?_, ?_, ?_⟩ <;> (simp only [calcTiktokMaxValues, hfE]; simp)

lemma calcMax_sound_field (s : MaxState) (ts : List Trend) (t : Trend) (ht : t ∈ ts)
    (hp : t.platform = "tiktok") (he : t.entity_type = "sound") :
    (calcTiktokMaxValues s ts).maxSoundRank =
      pyMax ((ts.filter (fun x => decide (x.platform = "tiktok" ∧ x.entity_type = "sound"))).map
        (fun h => h.rank.getD 1)) 1 := by
  have hmem : t ∈ ts.filter (fun x => decide (x.platform = "tiktok" ∧ x.entity_type = "sound")) :=
    List.mem_filter.mpr ⟨ht, by simp [hp, he]⟩
  have hfE : (ts.filter (fun x =>
      decide (x.platform = "tiktok" ∧ x.entity_type = "sound"))).isEmpty = false := by
    cases hl : ts.filter (fun x => decide (x.platform = "tiktok" ∧ x.entity_type = "sound")) with
    | nil => rw [hl] at hmem; cases hmem
    | cons a l => rfl
  simp only [calcTiktokMaxValues, hfE]
  simp

lemma calcMax_video_field (s : MaxState) (ts : List Trend) (t : Trend) (ht : t ∈ ts)
    (hp : t.platform = "tiktok") (he : t.entity_type = "video") :
    (calcTiktokMaxValues s ts).maxVideoRank =
      pyMax ((ts.filter (fun x => decide (x.platform = "tiktok" ∧ x.entity_type = "video"))).map
        (fun h => h.rank.getD 1)) 1 := by
  have hmem : t ∈ ts.filter (fun x => decide (x.platform = "tiktok" ∧ x.entity_type = "video")) :=
    List.mem_filter.mpr ⟨ht, by simp [hp, he]⟩
  have hfE : (ts.filter (fun x =>
      decide (x.platform = "tiktok" ∧ x.entity_type = "video"))).isEmpty = false := by
    cases hl : ts.filter (fun x => decide (x.platform = "tiktok" ∧ x.entity_type = "video")) with
    | nil => rw [hl] at hmem; cases hmem
    | cons a l => rfl
  simp only [calcTiktokMaxValues, hfE]
  simp

lemma engagementScore_calcMax_irrel (s1 s2 : MaxState) (ts : List Trend) (t : Trend)
    (ht : t ∈ ts) :
    engagementScore (calcTiktokMaxValues s1 ts) t = engagementScore (calcTiktokMaxValues s2 ts) t := by
  by_cases hp : t.platform = "google_trends"
  · simp [engagementScore, hp]
  by_cases hy : t.platform = "youtube"
  · simp [engagementScore, hp, hy]
  by_cases hk : t.platform = "tiktok"
  case neg => simp [engagementScore, hp, hy, hk]
  by_cases hh : t.entity_type = "hashtag"
  · have e1 := calcMax_hashtag_fields s1 ts t ht hk hh
    have e2 := calcMax_hashtag_fields s2 ts t ht hk hh
    simp only [engagementScore, hp, hy, hk, hh, if_false, if_true, e1.1, e1.2.1, e1.2.2,
      e2.1, e2.2.1, e2.2.2]
  by_cases hcr : t.entity_type = "creator"
  · simp [engagementScore, hp, hy, hk, hh, hcr]
  by_cases hs : t.entity_type = "sound"
  · have e1 := calcMax_sound_field s1 ts t ht hk hs
    have e2 := calcMax_sound_field s2 ts t ht hk hs
    simp only [engagementScore, hp, hy, hk, hh, hcr, hs, if_false, if_true, e1, e2]
    simp
  by_cases hv : t.entity_type = "video"
  · have e1 := calcMax_video_field s1 ts t ht hk hv
    have e2 := calcMax_video_field s2 ts t ht hk hv
    simp only [engagementScore, hp, hy, hk, hh, hcr, hs, hv, if_false, if_true, e1, e2]
    simp
  · simp [engagementScore, hp, hy, hk, hh, hcr, hs, hv]

lemma computeComponentScores_state_irrel (now : ℚ) (s1 s2 : MaxState) (batch : List Trend) :
    computeComponentScores now s1 batch = computeComponentScores now s2 batch := by
  unfold computeComponentScores
  apply List.map_congr_left
  intro t ht
  rw [engagementScore_calcMax_irrel s1 s2 batch t ht]

/-- Claim C4: the output of the adaptive scoring pass on a batch does not
depend on the calculator state left behind by earlier invocations: any two
starting states (in particular the fresh constructor state and the state after
scoring any earlier batch) give identical results, because the per-entity-type
maxima that are actually read are recomputed from the current batch. -/
theorem claim_C4_no_state_leak (now : ℚ) (s1 s2 : MaxState) (batch : List Trend) :
    calculateUniversalScoreAdaptive now s1 batch = calculateUniversalScoreAdaptive now s2 batch := by
  unfold calculateUniversalScoreAdaptive
  rw [computeComponentScores_state_irrel now s1 s2 batch]

/-! ## Final-score bounds (claim C1) -/

lemma recencyScore_bounds (now : ℚ) (t : Trend) :
    0 ≤ recencyScore now t ∧ recencyScore now t ≤ 100 := by
  rcases h : recencyTs t with _ | ts
  · have hred : recencyScore now t = 70 := by
      unfold recencyScore
      rw [h]
    rw [hred]
    norm_num
  · have hred : recencyScore now t = if ts = 0 then 70 else
        max 0 (min 100 (100 * (1/2 : ℝ) ^ ((ageHours now ts / 24 : ℚ) : ℝ))) := by
      unfold recencyScore
      rw [h]
    rw [hred]
    split_ifs with hz
    · norm_num
    · exact ⟨le_max_left 0 _, max_le (by norm_num) (min_le_left _ _)⟩

lemma crossPlatformScore_bounds (t : Trend) (batch : List Trend) :
    0 ≤ crossPlatformScore t batch ∧ crossPlatformScore t batch ≤ 100 := by
  rw [crossPlatformScore_eq]
  split_ifs <;> norm_num

lemma setScore_recency (k : ScoreKey) (v : ℚ) (t : Trend) :
    (setScore k v t).recency_score = t.recency_score := by
  cases k <;> rfl

lemma setScore_cross (k : ScoreKey) (v : ℚ) (t : Trend) :
    (setScore k v t).cross_platform_score = t.cross_platform_score := by
  cases k <;> rfl

lemma getScore_setScore_ne (k k2 : ScoreKey) (h : k2 ≠ k) (v : ℚ) (t : Trend) :
    getScore k2 (setScore k v t) = getScore k2 t := by
  cases k <;> cases k2 <;> first | rfl | exact absurd rfl h

lemma normalizeScores_mem_bound (k : ScoreKey) (ts : List Trend)
    (h : ∀ t ∈ ts, 0 ≤ getScore k t) :
    ∀ t2 ∈ normalizeScores k ts, 0 ≤ getScore k t2 ∧ getScore k t2 ≤ 100 := by
  intro t2 ht2
  unfold normalizeScores at ht2
  split_ifs at ht2 with h0
  · obtain ⟨t1, ht1, heq⟩ := List.mem_map.mp ht2
    rw [← heq, getScore_setScore]
    have hlen : (1 : ℚ) ≤ (ts.length : ℚ) := by
      have : 0 < ts.length := List.length_pos.mpr (by rintro rfl; cases ht1)
      exact_mod_cast this
    constructor
    · positivity
    · exact div_le_self (by norm_num) hlen
  · obtain ⟨t1, ht1, heq⟩ := List.mem_map.mp ht2
    rw [← heq, getScore_setScore]
    have hTnn : 0 ≤ (ts.map (getScore k)).sum := by
      apply List.sum_nonneg
      intro x hx
      obtain ⟨t0, ht0, hx0⟩ := List.mem_map.mp hx
      exact hx0 ▸ h t0 ht0
    have hTpos : 0 < (ts.map (getScore k)).sum := lt_of_le_of_ne hTnn (Ne.symm h0)
    have hxnn : 0 ≤ getScore k t1 := h t1 ht1
    have hxle : getScore k t1 ≤ (ts.map (getScore k)).sum := by
      apply List.single_le_sum
      · intro x hx
        obtain ⟨t0, ht0, hx0⟩ := List.mem_map.mp hx
        exact hx0 ▸ h t0 ht0
      · exact List.mem_map.mpr ⟨t1, ht1, rfl⟩
    constructor
    · positivity
    · have hq : getScore k t1 / (ts.map (getScore k)).sum ≤ 1 := (div_le_one hTpos).mpr hxle
      nlinarith

lemma normalizeScores_mem_src (k : ScoreKey) (ts : List Trend) (t2 : Trend)
    (h : t2 ∈ normalizeScores k ts) :
    ∃ t1 ∈ ts, (∀ k2, k2 ≠ k → getScore k2 t2 = getScore k2 t1) ∧
      t2.recency_score = t1.recency_score ∧
      t2.cross_platform_score = t1.cross_platform_score := by
  unfold normalizeScores at h
  split_ifs at h with h0 <;>
  · obtain ⟨t1, ht1, heq⟩ := List.mem_map.mp h
    exact ⟨t1, ht1, fun k2 hk2 => by rw [← heq, getScore_setScore_ne k k2 hk2],
      by rw [← heq, setScore_recency], by rw [← heq, setScore_cross]⟩

lemma computeComponentScores_mem (now : ℚ) (st : MaxState) (batch : List Trend) (t1 : Trend)
    (h : t1 ∈ computeComponentScores now st batch) :
    ∃ t0 ∈ batch, t1.recency_score = recencyScore now t0 ∧
      t1.cross_platform_score = crossPlatformScore t0 batch := by
  unfold computeComponentScores at h
  obtain ⟨t0, ht0, heq⟩ := List.mem_map.mp h
  exact ⟨t0, ht0, by rw [← heq], by rw [← heq]⟩

lemma normEng_mem_src (L : List Trend) (t2 : Trend) (h : t2 ∈ normalizeEngagementScores L) :
    ∃ t1 ∈ L, t2.recency_score = t1.recency_score ∧
      t2.cross_platform_score = t1.cross_platform_score := by
  unfold normalizeEngagementScores at h
  split_ifs at h with h1 h2
  · exact ⟨t2, h, rfl, rfl⟩
  · exact ⟨t2, h, rfl, rfl⟩
  · obtain ⟨t1, ht1, heq⟩ := List.mem_map.mp h
    refine ⟨t1, ht1, ?_, ?_⟩ <;>
    · by_cases hp : t1.platform = "google_trends" <;> rw [← heq] <;> simp [hp]

lemma rescaled_rec_cross_bounds (now : ℚ) (st : MaxState) (batch : List Trend) :
    ∀ t ∈ normalizeEngagementScores (computeComponentScores now st batch),
      (0 ≤ t.recency_score ∧ t.recency_score ≤ 100) ∧
      (0 ≤ t.cross_platform_score ∧ t.cross_platform_score ≤ 100) := by
  intro t ht
  obtain ⟨t1, ht1, hrec, hcross⟩ := normEng_mem_src _ t ht
  obtain ⟨t0, ht0, hr0, hc0⟩ := computeComponentScores_mem now st batch t1 ht1
  rw [hrec, hcross, hr0, hc0]
  exact ⟨recencyScore_bounds now t0, crossPlatformScore_bounds t0 batch⟩

lemma weightedSum_bounds (w : Weights) (t : Trend)
    (hw : 0 ≤ w.volume ∧ 0 ≤ w.engagement ∧ 0 ≤ w.velocity ∧ 0 ≤ w.recency ∧
      0 ≤ w.cross_platform)
    (hsum : w.sum = 1)
    (h1 : 0 ≤ t.volume_score ∧ t.volume_score ≤ 100)
    (h2 : 0 ≤ t.engagement_score ∧ t.engagement_score ≤ 100)
    (h3 : 0 ≤ t.velocity_score ∧ t.velocity_score ≤ 100)
    (h4 : 0 ≤ t.recency_score ∧ t.recency_score ≤ 100)
    (h5 : 0 ≤ t.cross_platform_score ∧ t.cross_platform_score ≤ 100) :
    0 ≤ weightedSum w t ∧ weightedSum w t ≤ 100 := by
  obtain ⟨w1, w2, w3, w4, w5⟩ := hw
  have hw1 : (0:ℝ) ≤ (w.volume : ℝ) := by exact_mod_cast w1
  have hw2 : (0:ℝ) ≤ (w.engagement : ℝ) := by exact_mod_cast w2
  have hw3 : (0:ℝ) ≤ (w.velocity : ℝ) := by exact_mod_cast w3
  have hw4 : (0:ℝ) ≤ (w.recency : ℝ) := by exact_mod_cast w4
  have hw5 : (0:ℝ) ≤ (w.cross_platform : ℝ) := by exact_mod_cast w5
  have ha1a : (0:ℝ) ≤ (t.volume_score : ℝ) := by exact_mod_cast h1.1
  have ha1b : (t.volume_score : ℝ) ≤ 100 := by exact_mod_cast h1.2
  have ha2 : (0:ℝ) ≤ (t.engagement_score : ℝ) := by exact_mod_cast h2.1
  have ha2b : (t.engagement_score : ℝ) ≤ 100 := by exact_mod_cast h2.2
  have ha3 : (0:ℝ) ≤ (t.velocity_score : ℝ) := by exact_mod_cast h3.1
  have ha3b : (t.velocity_score : ℝ) ≤ 100 := by exact_mod_cast h3.2
  have ha5 : (0:ℝ) ≤ (t.cross_platform_score : ℝ) := by exact_mod_cast h5.1
  have ha5b : (t.cross_platform_score : ℝ) ≤ 100 := by exact_mod_cast h5.2
  have hs : (w.volume : ℝ) + (w.engagement : ℝ) + (w.velocity : ℝ) + (w.recency : ℝ) +
      (w.cross_platform : ℝ) = 1 := by
    have := hsum
    unfold Weights.sum at this
    exact_mod_cast this
  unfold weightedSum
  constructor
  · have e1 := mul_nonneg hw1 ha1a
    have e2 := mul_nonneg hw2 ha2
    have e3 := mul_nonneg hw3 ha3
    have e4 := mul_nonneg hw4 h4.1
    have e5 := mul_nonneg hw5 ha5
    linarith
  · have e1 := mul_le_mul_of_nonneg_left ha1b hw1
    have e2 := mul_le_mul_of_nonneg_left ha2b hw2
    have e3 := mul_le_mul_of_nonneg_left ha3b hw3
    have e4 := mul_le_mul_of_nonneg_left h4.2 hw4
    have e5 := mul_le_mul_of_nonneg_left ha5b hw5
    nlinarith

lemma round2_bounds (x : ℝ) (h0 : 0 ≤ x) (h1 : x ≤ 100) :
    0 ≤ round2 x ∧ round2 x ≤ 100.0001 := by
  unfold round2
  have hlo : (0 : ℤ) ≤ round (x * 100) := by
    rw [round_eq]
    apply Int.le_floor.mpr
    push_cast
    linarith
  have hhi : round (x * 100) ≤ round ((10000 : ℝ)) := by
    rw [round_eq, round_eq]
    exact Int.floor_le_floor (by linarith)
  have h10000 : round ((10000 : ℝ)) = 10000 := by
    norm_num [round_eq]
  rw [h10000] at hhi
  constructor
  · have : (0:ℝ) ≤ ((round (x * 100) : ℤ) : ℝ) := by exact_mod_cast hlo
    linarith
  · have : ((round (x * 100) : ℤ) : ℝ) ≤ 10000 := by exact_mod_cast hhi
    rw [div_le_iff₀ (by norm_num : (0:ℝ) < 100)]
    norm_num
    linarith

lemma weightedSum_assign (w : Weights) (t : Trend) :
    weightedSum w (assignTrendingScore t) = weightedSum w t := rfl

lemma assign_trending (t : Trend) :
    (assignTrendingScore t).trending_score =
      round2 (weightedSum (adaptiveWeightsFor t.platform t.entity_type) t) := rfl

lemma assign_platform (t : Trend) : (assignTrendingScore t).platform = t.platform := rfl

lemma assign_entity (t : Trend) : (assignTrendingScore t).entity_type = t.entity_type := rfl

/-- Claim C1 (amended): after the adaptive scoring pass on a batch whose raw
component values at the rescale stage are all non-negative, every item has a
trending score in [0, 100.0001] that equals the selected weight vector (whose
weights sum to 1) applied to the item's own five component scores, rounded to
two decimals. -/
theorem claim_C1_amended (now : ℚ) (st : MaxState) (batch : List Trend)
    (h : ∀ t ∈ normalizeEngagementScores (computeComponentScores now st batch),
      0 ≤ t.volume_score ∧ 0 ≤ t.engagement_score ∧ 0 ≤ t.velocity_score) :
    ∀ t ∈ calculateUniversalScoreAdaptive now st batch,
      (adaptiveWeightsFor t.platform t.entity_type).sum = 1 ∧
      t.trending_score = round2 (weightedSum (adaptiveWeightsFor t.platform t.entity_type) t) ∧
      0 ≤ t.trending_score ∧ t.trending_score ≤ 100.0001 := by
  intro t ht
  unfold calculateUniversalScoreAdaptive at ht
  by_cases hbe : batch.isEmpty
  · rw [if_pos hbe] at ht
    cases ht
  rw [if_neg hbe] at ht
  have ht4 : t ∈ (normalizeScores .velocity (normalizeScores .engagement
      (normalizeScores .volume (normalizeEngagementScores
        (computeComponentScores now st batch))))).map assignTrendingScore := by
    unfold sortByTrendingScore at ht
    exact List.mem_mergeSort.mp ht
  obtain ⟨t3, ht3, heq⟩ := List.mem_map.mp ht4
  set L0 := normalizeEngagementScores (computeComponentScores now st batch) with hL0
  set L1 := normalizeScores .volume L0 with hL1
  set L2 := normalizeScores .engagement L1 with hL2
  -- volume bounds established at L1, preserved to t3
  have hvol1 : ∀ x ∈ L1, 0 ≤ getScore .volume x ∧ getScore .volume x ≤ 100 :=
    normalizeScores_mem_bound .volume L0 (fun x hx => (h x hx).1)
  -- engagement non-negativity at L1
  have heng1 : ∀ x ∈ L1, 0 ≤ getScore .engagement x := by
    intro x hx
    obtain ⟨x0, hx0, hks, _, _⟩ := normalizeScores_mem_src .volume L0 x hx
    rw [hks .engagement (by simp)]
    exact (h x0 hx0).2.1
  -- velocity non-negativity at L1
  have hvel1 : ∀ x ∈ L1, 0 ≤ getScore .velocity x := by
    intro x hx
    obtain ⟨x0, hx0, hks, _, _⟩ := normalizeScores_mem_src .volume L0 x hx
    rw [hks .velocity (by simp)]
    exact (h x0 hx0).2.2
  -- recency and cross bounds at L1
  have hrc1 : ∀ x ∈ L1, (0 ≤ x.recency_score ∧ x.recency_score ≤ 100) ∧
      (0 ≤ x.cross_platform_score ∧ x.cross_platform_score ≤ 100) := by
    intro x hx
    obtain ⟨x0, hx0, _, hr, hc⟩ := normalizeScores_mem_src .volume L0 x hx
    rw [hr, hc]
    exact rescaled_rec_cross_bounds now st batch x0 hx0
  -- L2 facts
  have heng2 : ∀ x ∈ L2, 0 ≤ getScore .engagement x ∧ getScore .engagement x ≤ 100 :=
    normalizeScores_mem_bound .engagement L1 heng1
  have hvol2 : ∀ x ∈ L2, 0 ≤ getScore .volume x ∧ getScore .volume x ≤ 100 := by
    intro x hx
    obtain ⟨x0, hx0, hks, _, _⟩ := normalizeScores_mem_src .engagement L1 x hx
    rw [hks .volume (by simp)]
    exact hvol1 x0 hx0
  have hvel2 : ∀ x ∈ L2, 0 ≤ getScore .velocity x := by
    intro x hx
    obtain ⟨x0, hx0, hks, _, _⟩ := normalizeScores_mem_src .engagement L1 x hx
    rw [hks .velocity (by simp)]
    exact hvel1 x0 hx0
  have hrc2 : ∀ x ∈ L2, (0 ≤ x.recency_score ∧ x.recency_score ≤ 100) ∧
      (0 ≤ x.cross_platform_score ∧ x.cross_platform_score ≤ 100) := by
    intro x hx
    obtain ⟨x0, hx0, _, hr, hc⟩ := normalizeScores_mem_src .engagement L1 x hx
    rw [hr, hc]
    exact hrc1 x0 hx0
  -- L3 facts at t3
  have hvel3 : 0 ≤ getScore .velocity t3 ∧ getScore .velocity t3 ≤ 100 :=
    normalizeScores_mem_bound .velocity L2 hvel2 t3 ht3
  obtain ⟨x2, hx2, hks3, hr3, hc3⟩ := normalizeScores_mem_src .velocity L2 t3 ht3
  have hvol3 : 0 ≤ getScore .volume t3 ∧ getScore .volume t3 ≤ 100 := by
    rw [hks3 .volume (by simp)]
    exact hvol2 x2 hx2
  have heng3 : 0 ≤ getScore .engagement t3 ∧ getScore .engagement t3 ≤ 100 := by
    rw [hks3 .engagement (by simp)]
    exact heng2 x2 hx2
  have hrc3 : (0 ≤ t3.recency_score ∧ t3.recency_score ≤ 100) ∧
      (0 ≤ t3.cross_platform_score ∧ t3.cross_platform_score ≤ 100) := by
    rw [hr3, hc3]
    exact hrc2 x2 hx2
  -- assemble
  have hwsum : (adaptiveWeightsFor t3.platform t3.entity_type).sum = 1 :=
    adaptiveWeightsFor_sum_one _ _
  have hwnn := adaptiveWeightsFor_nonneg t3.platform t3.entity_type
  have hws : 0 ≤ weightedSum (adaptiveWeightsFor t3.platform t3.entity_type) t3 ∧
      weightedSum (adaptiveWeightsFor t3.platform t3.entity_type) t3 ≤ 100 :=
    weightedSum_bounds _ t3 hwnn hwsum hvol3 heng3 hvel3 hrc3.1 hrc3.2
  have hr2 := round2_bounds _ hws.1 hws.2
  subst heq
  rw [assign_platform, assign_entity, assign_trending, weightedSum_assign]
  exact ⟨adaptiveWeightsFor_sum_one _ _, rfl, hr2.1, hr2.2⟩

/-- Item for the claim C1 witness: a bare search-trends item. -/
def c1W : Trend := { platform := "google_trends" }

/-- Witness for the amended claim C1: a singleton search-trends batch with
all-zero raw metrics satisfies the non-negativity hypothesis. -/
theorem claim_C1_witness :
    (∀ t ∈ normalizeEngagementScores (computeComponentScores 0 initState [c1W]),
      0 ≤ t.volume_score ∧ 0 ≤ t.engagement_score ∧ 0 ≤ t.velocity_score) ∧
    (∀ t ∈ calculateUniversalScoreAdaptive 0 initState [c1W],
      (adaptiveWeightsFor t.platform t.entity_type).sum = 1 ∧
      t.trending_score = round2 (weightedSum (adaptiveWeightsFor t.platform t.entity_type) t) ∧
      0 ≤ t.trending_score ∧ t.trending_score ≤ 100.0001) := by
  have hh : ∀ t ∈ normalizeEngagementScores (computeComponentScores 0 initState [c1W]),
      0 ≤ t.volume_score ∧ 0 ≤ t.engagement_score ∧ 0 ≤ t.velocity_score := by
    have hOI : otherItems (computeComponentScores 0 initState [c1W]) = [] := by
      simp [otherItems, computeComponentScores, c1W]
    have hNE : normalizeEngagementScores (computeComponentScores 0 initState [c1W]) =
        computeComponentScores 0 initState [c1W] := by
      unfold normalizeEngagementScores
      rw [hOI]
      simp
    rw [hNE]
    intro t ht
    simp only [computeComponentScores, List.map_cons, List.map_nil,
      List.mem_singleton] at ht
    subst ht
    refine ⟨?_, ?_, ?_⟩ <;>
      norm_num [volumeScore, engagementScore, velocityScore, c1W]
  exact ⟨hh, claim_C1_amended 0 initState [c1W] hh⟩

/-- First item of the claim C1 counterexample: a search-trends item with a
negative increase percentage. -/
def c1A : Trend := { platform := "google_trends", increase_percentage := some (-100) }

/-- Second item of the claim C1 counterexample. -/
def c1B : Trend := { platform := "google_trends", increase_percentage := some 50 }

/-- The counterexample items after the raw component pass. -/
def c1rA : Trend :=
  { platform := "google_trends", increase_percentage := some (-100), volume_score := 0,
    engagement_score := -100, velocity_score := -4500, cross_platform_score := 0,
    recency_score := 70 }

def c1rB : Trend :=
  { platform := "google_trends", increase_percentage := some 50, volume_score := 0,
    engagement_score := 50, velocity_score := 2250, cross_platform_score := 0,
    recency_score := 70 }

/-- The counterexample items after volume normalization. -/
def c1vA : Trend := { c1rA with volume_score := 50 }

def c1vB : Trend := { c1rB with volume_score := 50 }

/-- The counterexample items after engagement normalization. -/
def c1eA : Trend := { c1vA with engagement_score := 200 }

def c1eB : Trend := { c1vB with engagement_score := -100 }

/-- The counterexample items after velocity normalization. -/
def c1lA : Trend := { c1eA with velocity_score := 200 }

def c1lB : Trend := { c1eB with velocity_score := -100 }

/-- The counterexample items after final score assignment. -/
def c1fA : Trend :=
  { c1lA with trending_score := 119.5
              weights_used_volume := 0.10
              weights_used_engagement := 0.15
              weights_used_velocity := 0.30
              weights_used_recency := 0.35
              weights_used_cross_platform := 0.10 }

def c1fB : Trend :=
  { c1lB with trending_score := -15.5
              weights_used_volume := 0.10
              weights_used_engagement := 0.15
              weights_used_velocity := 0.30
              weights_used_recency := 0.35
              weights_used_cross_platform := 0.10 }

/-- Claim C1 counterexample: on the two-item search-trends batch with raw
increase percentages -100 and 50, the adaptive pass produces trending scores
119.5 and -15.5, both outside [0, 100.0001] — the claimed bound fails for
batches with negative raw component values. -/
theorem claim_C1_counterexample :
    ((calculateUniversalScoreAdaptive 0 initState [c1A, c1B]).map
      (fun t => t.trending_score)) = [119.5, -15.5] ∧
    ¬ ((119.5 : ℝ) ≤ 100.0001) ∧ ¬ ((0 : ℝ) ≤ (-15.5 : ℝ)) := by
  refine ⟨?_, by norm_num, by norm_num⟩
  have h1 : computeComponentScores 0 initState [c1A, c1B] = [c1rA, c1rB] := by
    unfold computeComponentScores
    norm_num [c1A, c1B, c1rA, c1rB, volumeScore, engagementScore, velocityScore,
      recencyScore, recencyTs, crossPlatformScore, extractKeyTerms, trendText,
      pySplit, pyLower, wordsAux]
  have h2 : normalizeEngagementScores [c1rA, c1rB] = [c1rA, c1rB] := by
    simp [normalizeEngagementScores, otherItems, googleItems, c1rA, c1rB]
  have h3 : normalizeScores .volume [c1rA, c1rB] = [c1vA, c1vB] := by
    norm_num [normalizeScores, getScore, setScore, c1rA, c1rB, c1vA, c1vB]
  have h4 : normalizeScores .engagement [c1vA, c1vB] = [c1eA, c1eB] := by
    norm_num [normalizeScores, getScore, setScore, c1rA, c1rB, c1vA, c1vB, c1eA, c1eB]
  have h5 : normalizeScores .velocity [c1eA, c1eB] = [c1lA, c1lB] := by
    norm_num [normalizeScores, getScore, setScore, c1rA, c1rB, c1vA, c1vB, c1eA, c1eB,
      c1lA, c1lB]
  have h6 : ([c1lA, c1lB].map assignTrendingScore) = [c1fA, c1fB] := by
    norm_num [assignTrendingScore, adaptiveWeightsFor, weightedSum, round2, round_eq,
      c1rA, c1rB, c1vA, c1vB, c1eA, c1eB, c1lA, c1lB, c1fA, c1fB]
  have h7 : sortByTrendingScore [c1fA, c1fB] = [c1fA, c1fB] := by
    simp [sortByTrendingScore, List.mergeSort, c1fA, c1fB, c1lA, c1lB, c1eA, c1eB,
      c1vA, c1vB, c1rA, c1rB]
    norm_num
  have hmain : calculateUniversalScoreAdaptive 0 initState [c1A, c1B] = [c1fA, c1fB] := by
    unfold calculateUniversalScoreAdaptive
    rw [if_neg (by simp)]
    rw [h1, h2, h3, h4, h5, h6, h7]
  rw [hmain]
  simp [c1fA, c1fB, c1lA, c1lB, c1eA, c1eB, c1vA, c1vB, c1rA, c1rB]

end Trends
